import Mathlib

/-!
Shallow embedding of the notification subsystem of
`src/packages/module-v2/src/Notification.tsx`.

The provider keeps a list of active notifications (each one the
`NotificationState` union plus an optional stored close callback) and exposes
`addNotification`, `closeNotification` and `resetNotifications`; an unmount
effect (`teardown`) closes everything.  External interactions — invoking a
stored close callback, enqueueing into the KoliBri toaster, and `closeAll` —
are modelled as an explicit effect trace emitted by each operation.  The
close callback returned by the external toaster's `enqueue` is an input of
the model (`closeFn : Option Nat`), since it is chosen by the environment.
-/

namespace NotificationModel

/-- The four content severities `'info' | 'success' | 'warning' | 'error'`. -/
inductive Severity
  | info
  | success
  | warning
  | error
deriving DecidableEq, Repr

/-- The two status codes `401 | 403` of the status-code variant. -/
inductive StatusCode
  | s401
  | s403
deriving DecidableEq, Repr

/-- A `ReactNode` message: either a plain string (`typeof message === 'string'`)
or an opaque rich node, identified by a label. -/
inductive Message
  | text (s : String)
  | rich (node : Nat)
deriving DecidableEq, Repr

/-- The tagged union `NotificationState`: a content notification with
severity, headline, message and optional identifier, or a status-code
notification (401/403) with no content fields. -/
inductive NotificationState
  | content (ty : Severity) (headline : String) (message : Message) (id : Option String)
  | status (code : StatusCode)
deriving DecidableEq, Repr

/-- A stored list entry: `NotificationState & { closeFn?: () => void }`.
Close callbacks are identified by a `Nat` handle; `none` models an absent
(`undefined`) callback. -/
structure Entry where
  state : NotificationState
  closeFn : Option Nat
deriving DecidableEq, Repr

/-- `n.id` on a stored entry: the identifier of a content notification,
`undefined` (`none`) otherwise — a status-code entry has no `id` field. -/
def Entry.id (e : Entry) : Option String :=
  match e.state with
  | .content _ _ _ i => i
  | .status _ => none

/-- Whether an entry is a status-code notification, i.e. whether
`o.type === 401 || o.type === 403`. -/
def Entry.isStatus (e : Entry) : Bool :=
  match e.state with
  | .content _ _ _ _ => false
  | .status _ => true

/-- The descriptor handed to `toaster.enqueue`: severity, `label` (the
headline), `description` (the message when it is a plain string) and whether
a `render` callback is supplied (iff the message is not a plain string). -/
structure EnqueueDescriptor where
  ty : Severity
  label : String
  description : Option String
  hasRender : Bool
deriving DecidableEq, Repr

/-- Builds the `toaster.enqueue` descriptor from a content notification. -/
def descriptorOf (ty : Severity) (headline : String) (message : Message) : EnqueueDescriptor :=
  { ty := ty
    label := headline
    description := match message with | .text s => some s | .rich _ => none
    hasRender := match message with | .text _ => false | .rich _ => true }

/-- Observable external interactions of the provider:
invoking a stored close callback, enqueueing into the external toaster, and
`toaster.closeAll()`. -/
inductive Effect
  | invokeClose (cb : Nat)
  | enqueue (d : EnqueueDescriptor)
  | closeAll
deriving DecidableEq, Repr

/-- JavaScript truthiness of `notification.id` (type `string | undefined`):
truthy iff present and non-empty. -/
def idTruthy : Option String → Bool
  | none => false
  | some s => s != ""

/-- The effects the content branch of `addNotification` emits before
awaiting `toaster.enqueue`: when `notification.id` is truthy and some stored
entry has the same id, the first such entry's stored close callback (if any)
is invoked. -/
def addContentPre (notifications : List Entry) (id : Option String) : List Effect :=
  if idTruthy id && notifications.any (fun n => n.id == id) then
    match (notifications.find? (fun n => n.id == id)).bind Entry.closeFn with
    | some cb => [Effect.invokeClose cb]
    | none => []
  else []

/-- The state update the content branch applies once `enqueue` resolves:
`old.filter((n) => n.id !== notification.id)` followed by appending the new
notification annotated with the resolved close callback. -/
def addContentUpdate (ty : Severity) (headline : String) (message : Message)
    (id : Option String) (closeFn : Option Nat) (old : List Entry) : List Entry :=
  old.filter (fun n => n.id != id) ++ [{ state := .content ty headline message id, closeFn := closeFn }]

/-- The state update of the status-code branch:
`[...old.filter((o) => o.type !== 401 && o.type !== 403), { type }]`. -/
def addStatusUpdate (code : StatusCode) (old : List Entry) : List Entry :=
  old.filter (fun o => !(o.state == .status .s401) && !(o.state == .status .s403))
    ++ [{ state := .status code, closeFn := none }]

/-- `addNotification` over a state `st`:  the status-code branch updates the
list and returns without touching the toaster; the content branch emits its
pre-await effects, then the `enqueue` effect, and — once the environment
resolves `enqueue` with `closeFn` — applies the reconciling update and
returns that close callback.  The result is
(effect trace, new list, returned close handle). -/
def addNotification (st : List Entry) (n : NotificationState) (closeFn : Option Nat) :
    List Effect × List Entry × Option Nat :=
  match n with
  | .status code => ([], addStatusUpdate code st, none)
  | .content ty headline message id =>
      (addContentPre st id ++ [Effect.enqueue (descriptorOf ty headline message)],
       addContentUpdate ty headline message id closeFn st,
       closeFn)

/-- `closeNotification(id)`: find the first entry whose id equals `id`; if
found, invoke its close callback (when present) and filter all entries with
that id out of the list; otherwise do nothing. -/
def closeNotification (st : List Entry) (i : String) : List Effect × List Entry :=
  match st.find? (fun n => n.id == some i) with
  | some found =>
      ((match found.closeFn with | some cb => [Effect.invokeClose cb] | none => []),
       st.filter (fun n => n.id != some i))
  | none => ([], st)

/-- `resetNotifications()`: `toaster.closeAll()` then `setNotifications([])`. -/
def resetNotifications (_st : List Entry) : List Effect × List Entry :=
  ([Effect.closeAll], [])

/-- The unmount cleanup of the provider's `useEffect`:
`toaster.closeAll()` then `setNotifications([])`. -/
def teardown (_st : List Entry) : List Effect × List Entry :=
  ([Effect.closeAll], [])

/-- Entries of the list carrying the status code `code`. -/
def statusEntries (code : StatusCode) (st : List Entry) : List Entry :=
  st.filter (fun e => e.state == .status code)

/-- The invariant of spec §3: at most one status-code notification of each
kind (at most one 401 and at most one 403) is in the list. -/
def atMostOneStatusEach (st : List Entry) : Prop :=
  (statusEntries .s401 st).length ≤ 1 ∧ (statusEntries .s403 st).length ≤ 1

instance (st : List Entry) : Decidable (atMostOneStatusEach st) := by
  unfold atMostOneStatusEach; infer_instance

/-- The present identifiers of a list, in order. -/
def presentIds (st : List Entry) : List String :=
  st.filterMap Entry.id

/-- The invariant of spec §3: every present identifier occurs on at most one
entry of the list. -/
def idsUnique (st : List Entry) : Prop :=
  (presentIds st).Nodup

instance (st : List Entry) : Decidable (idsUnique st) := by
  unfold idsUnique; infer_instance

/-! ### Helper lemmas -/

theorem Entry.id_of_isStatus {e : Entry} (h : e.isStatus = true) : e.id = none := by
  cases e with
  | mk s c =>
    cases s with
    | content ty hl msg i => simp [Entry.isStatus] at h
    | status code => rfl

theorem notStatus_pred_eq (e : Entry) :
    (!(e.state == .status .s401) && !(e.state == .status .s403)) = !e.isStatus := by
  cases e with
  | mk s c =>
    cases s with
    | content ty hl msg i => rfl
    | status code => cases code <;> rfl

theorem addStatusUpdate_eq (code : StatusCode) (st : List Entry) :
    addStatusUpdate code st
      = st.filter (fun e => !e.isStatus) ++ [⟨.status code, none⟩] := by
  unfold addStatusUpdate
  rw [List.filter_congr (fun e _ => notStatus_pred_eq e)]

theorem filter_addContentUpdate (ty : Severity) (hl : String) (msg : Message)
    (i : Option String) (cf : Option Nat) (st : List Entry) :
    (addContentUpdate ty hl msg i cf st).filter (fun n => n.id == i)
      = [⟨.content ty hl msg i, cf⟩] := by
  unfold addContentUpdate
  rw [List.filter_append, List.filter_filter]
  have h1 : st.filter (fun a => (a.id == i) && (a.id != i)) = [] := by
    rw [List.filter_eq_nil_iff]
    intro a _
    simp [bne]
  rw [h1]
  simp [Entry.id]

theorem statusEntries_append (code : StatusCode) (l₁ l₂ : List Entry) :
    statusEntries code (l₁ ++ l₂) = statusEntries code l₁ ++ statusEntries code l₂ :=
  List.filter_append _ _

theorem statusEntries_filter_sublist (code : StatusCode) (p : Entry → Bool) (st : List Entry) :
    (statusEntries code (st.filter p)).Sublist (statusEntries code st) :=
  List.Sublist.filter _ (List.filter_sublist st)

theorem presentIds_append (l₁ l₂ : List Entry) :
    presentIds (l₁ ++ l₂) = presentIds l₁ ++ presentIds l₂ :=
  List.filterMap_append _ _ _

theorem presentIds_filter_sublist (p : Entry → Bool) (st : List Entry) :
    (presentIds (st.filter p)).Sublist (presentIds st) :=
  List.Sublist.filterMap _ (List.filter_sublist st)

/-! ### Claim theorems -/

/-- C2: for any two completed content `addNotification` calls with the same
present identifier, applying their list-update steps in either completion
order leaves exactly one entry with that identifier: the one applied last.
Both orders are covered because the two notifications are universally
quantified, so swapping the indices instantiates the other completion
order. -/
theorem lastCompletedWins (st : List Entry) (ty₁ ty₂ : Severity) (hl₁ hl₂ : String)
    (msg₁ msg₂ : Message) (cf₁ cf₂ : Option Nat) (s : String) :
    ((addContentUpdate ty₂ hl₂ msg₂ (some s) cf₂
        (addContentUpdate ty₁ hl₁ msg₁ (some s) cf₁ st)).filter
          (fun n => n.id == some s))
      = [⟨.content ty₂ hl₂ msg₂ (some s), cf₂⟩] :=
  filter_addContentUpdate ty₂ hl₂ msg₂ (some s) cf₂ _

/-- C3: a status-code `addNotification` emits no external effect, returns no
close handle, removes all existing status-code entries (both 401 and 403)
leaving only the new status entry, keeps every content entry unchanged, and
appends the new status entry at the end. -/
theorem addNotification_status_spec (st : List Entry) (code : StatusCode) (cf : Option Nat) :
    (addNotification st (.status code) cf).1 = [] ∧
    (addNotification st (.status code) cf).2.2 = none ∧
    ((addNotification st (.status code) cf).2.1.filter (fun e => e.isStatus))
      = [⟨.status code, none⟩] ∧
    ((addNotification st (.status code) cf).2.1.filter (fun e => !e.isStatus))
      = st.filter (fun e => !e.isStatus) ∧
    (addNotification st (.status code) cf).2.1.getLast? = some ⟨.status code, none⟩ := by
  refine ⟨rfl, rfl, ?_, ?_, ?_⟩
  · show (addStatusUpdate code st).filter (fun e => e.isStatus) = _
    rw [addStatusUpdate_eq, List.filter_append, List.filter_filter]
    have h1 : st.filter (fun a => a.isStatus && !a.isStatus) = [] := by
      rw [List.filter_eq_nil_iff]
      intro a _
      simp
    rw [h1]
    rfl
  · show (addStatusUpdate code st).filter (fun e => !e.isStatus) = _
    rw [addStatusUpdate_eq, List.filter_append, List.filter_filter]
    have h1 : st.filter (fun a => !a.isStatus && !a.isStatus) = st.filter (fun e => !e.isStatus) := by
      apply List.filter_congr
      intro a _
      cases a.isStatus <;> rfl
    rw [h1]
    simp [Entry.isStatus]
  · show (addStatusUpdate code st).getLast? = _
    rw [addStatusUpdate_eq]
    exact List.getLast?_concat _

/-- C4: a content `addNotification` with an absent identifier reconciles, on
resolution, by removing every entry whose identifier is also absent — in
particular every status-code entry and every other id-less content entry —
and then appending the new entry. -/
theorem addContentUpdate_absent_id_spec (st : List Entry) (ty : Severity) (hl : String)
    (msg : Message) (cf : Option Nat) :
    addContentUpdate ty hl msg none cf st
      = st.filter (fun e => e.id.isSome) ++ [⟨.content ty hl msg none, cf⟩] ∧
    (∀ e ∈ st, e.id = none → e ∉ st.filter (fun e => e.id.isSome)) ∧
    (∀ e ∈ st, e.isStatus = true → e ∉ st.filter (fun e => e.id.isSome)) := by
  refine ⟨?_, ?_, ?_⟩
  · unfold addContentUpdate
    have h1 : st.filter (fun n => n.id != none) = st.filter (fun e => e.id.isSome) := by
      apply List.filter_congr
      intro a _
      cases a.id <;> rfl
    rw [h1]
  · intro e _ hid hmem
    have := (List.mem_filter.mp hmem).2
    rw [hid] at this
    simp at this
  · intro e he hst
    intro hmem
    have := (List.mem_filter.mp hmem).2
    rw [Entry.id_of_isStatus hst] at this
    simp at this

/-- C4 witness: on a concrete list holding a 401 status entry, an id-less
content entry and an identified content entry, the absent-id update drops
the first two and keeps the identified one before appending. -/
theorem addContentUpdate_absent_id_spec_witness :
    addContentUpdate .success "OK" (.text "d") none (some 4)
        [⟨.status .s401, none⟩, ⟨.content .info "h" (.text "m") none, some 2⟩,
         ⟨.content .info "i" (.text "n") (some "k"), some 3⟩]
      = [⟨.content .info "i" (.text "n") (some "k"), some 3⟩,
         ⟨.content .success "OK" (.text "d") none, some 4⟩] ∧
    (⟨.status .s401, none⟩ : Entry) ∉
      ([⟨.status .s401, none⟩, ⟨.content .info "h" (.text "m") none, some 2⟩,
        ⟨.content .info "i" (.text "n") (some "k"), some 3⟩] : List Entry).filter
          (fun e => e.id.isSome) := by
  constructor
  · exact ((addContentUpdate_absent_id_spec
      [⟨.status .s401, none⟩, ⟨.content .info "h" (.text "m") none, some 2⟩,
       ⟨.content .info "i" (.text "n") (some "k"), some 3⟩] .success "OK" (.text "d")
      (some 4)).1).trans (by decide)
  · exact (addContentUpdate_absent_id_spec
      [⟨.status .s401, none⟩, ⟨.content .info "h" (.text "m") none, some 2⟩,
       ⟨.content .info "i" (.text "n") (some "k"), some 3⟩] .success "OK" (.text "d")
      (some 4)).2.2 ⟨.status .s401, none⟩ (by decide) (by decide)

/-- C7: a content `addNotification` whose identifier is present and fresh
leaves, once the enqueue resolves, every previous entry in place and the
list exactly one entry longer. -/
theorem addNotification_fresh_id_spec (st : List Entry) (ty : Severity) (hl : String)
    (msg : Message) (s : String) (cf : Option Nat)
    (h : ∀ e ∈ st, e.id ≠ some s) :
    (addNotification st (.content ty hl msg (some s)) cf).2.1
      = st ++ [⟨.content ty hl msg (some s), cf⟩] ∧
    (addNotification st (.content ty hl msg (some s)) cf).2.1.length = st.length + 1 ∧
    ∀ e ∈ st, e ∈ (addNotification st (.content ty hl msg (some s)) cf).2.1 := by
  have heq : (addNotification st (.content ty hl msg (some s)) cf).2.1
      = st ++ [⟨.content ty hl msg (some s), cf⟩] := by
    show addContentUpdate ty hl msg (some s) cf st = _
    unfold addContentUpdate
    have h1 : st.filter (fun n => n.id != some s) = st := by
      rw [List.filter_eq_self]
      intro a ha
      exact bne_iff_ne.mpr (h a ha)
    rw [h1]
  refine ⟨heq, ?_, ?_⟩
  · rw [heq]
    simp
  · intro e he
    rw [heq]
    exact List.mem_append_left _ he

/-- C7 witness: adding an entry with fresh identifier `"b"` to a singleton
list with identifier `"a"` appends it, keeping the old entry. -/
theorem addNotification_fresh_id_spec_witness :
    (addNotification [⟨.content .info "h" (.text "m") (some "a"), some 1⟩]
        (.content .error "E" (.text "boom") (some "b")) (some 2)).2.1
      = [⟨.content .info "h" (.text "m") (some "a"), some 1⟩,
         ⟨.content .error "E" (.text "boom") (some "b"), some 2⟩] :=
  (addNotification_fresh_id_spec [⟨.content .info "h" (.text "m") (some "a"), some 1⟩]
    .error "E" (.text "boom") "b" (some 2) (by decide)).1

/-- C8: `resetNotifications` invokes the external `closeAll` and leaves the
list empty, whatever the current list is — including when already empty. -/
theorem resetNotifications_spec (st : List Entry) :
    (resetNotifications st).1 = [Effect.closeAll] ∧ (resetNotifications st).2 = [] :=
  ⟨rfl, rfl⟩

/-- C9: the unmount cleanup invokes the external `closeAll` exactly once and
clears the list, for every state the list may be in. -/
theorem teardown_spec (st : List Entry) :
    (teardown st).2 = [] ∧ (teardown st).1.count Effect.closeAll = 1 :=
  ⟨rfl, rfl⟩

/-- C1 counterexample: the pre-await close is guarded by the JavaScript
truthiness of `notification.id`, so with the empty-string identifier the
claim fails.  The list holds an entry with identifier `""` and stored close
callback `0`, and a new content notification with the same identifier `""`
is added; the claim demands that callback be invoked before the enqueue,
but the emitted trace is only the enqueue — no `invokeClose` occurs. -/
theorem addNotification_emptyId_skips_close :
    (addNotification [⟨.content .error "E" (.text "boom") (some ""), some 0⟩]
        (.content .success "OK" (.text "done") (some "")) (some 1)).1
      = [Effect.enqueue (descriptorOf .success "OK" (.text "done"))] := by
  decide

/-- C1 (amended): for a content `addNotification` whose identifier is
non-empty and equal to the identifier of an entry already in the list, the
first such entry's stored close callback is invoked before the enqueue
effect, and once the enqueue resolves the list's only entry with that
identifier is the newly added notification, appended at the end. -/
theorem addNotification_duplicate_id_spec (st : List Entry) (ty : Severity) (hl : String)
    (msg : Message) (s : String) (cf : Option Nat) (found : Entry) (cb : Nat)
    (hs : s ≠ "")
    (hfind : st.find? (fun n => n.id == some s) = some found)
    (hcb : found.closeFn = some cb) :
    (addNotification st (.content ty hl msg (some s)) cf).1
      = [Effect.invokeClose cb, Effect.enqueue (descriptorOf ty hl msg)] ∧
    ((addNotification st (.content ty hl msg (some s)) cf).2.1.filter
        (fun n => n.id == some s)) = [⟨.content ty hl msg (some s), cf⟩] ∧
    (addNotification st (.content ty hl msg (some s)) cf).2.1.getLast?
      = some ⟨.content ty hl msg (some s), cf⟩ := by
  refine ⟨?_, ?_, ?_⟩
  · show addContentPre st (some s) ++ [Effect.enqueue (descriptorOf ty hl msg)] = _
    have hmem := List.mem_of_find?_eq_some hfind
    have hp := List.find?_some hfind
    have hany : st.any (fun n => n.id == some s) = true :=
      List.any_eq_true.mpr ⟨found, hmem, hp⟩
    have htr : idTruthy (some s) = true := by
      simp [idTruthy, hs]
    unfold addContentPre
    rw [htr, hany, hfind]
    simp [hcb]
  · exact filter_addContentUpdate ty hl msg (some s) cf st
  · show (addContentUpdate ty hl msg (some s) cf st).getLast? = _
    unfold addContentUpdate
    exact List.getLast?_concat _

/-- C1 witness: a concrete duplicate add with identifier `"a"`: the stored
callback `0` of the prior entry fires before the enqueue. -/
theorem addNotification_duplicate_id_spec_witness :
    (addNotification [⟨.content .error "E" (.text "boom") (some "a"), some 0⟩]
        (.content .success "OK" (.text "done") (some "a")) (some 1)).1
      = [Effect.invokeClose 0, Effect.enqueue (descriptorOf .success "OK" (.text "done"))] :=
  (addNotification_duplicate_id_spec
    [⟨.content .error "E" (.text "boom") (some "a"), some 0⟩]
    .success "OK" (.text "done") "a" (some 1)
    ⟨.content .error "E" (.text "boom") (some "a"), some 0⟩ 0
    (by decide) (by decide) rfl).1

/-- C10: `closeNotification` with an identifier absent from the list changes
nothing and emits no effect; with an identifier that occurs, the found
entry's stored close callback (when present) is invoked and the entry is
removed from the list. -/
theorem closeNotification_spec (st : List Entry) (i : String) :
    ((∀ e ∈ st, e.id ≠ some i) → closeNotification st i = ([], st)) ∧
    ∀ found, st.find? (fun n => n.id == some i) = some found →
      (closeNotification st i).2 = st.filter (fun n => n.id != some i) ∧
      found ∉ (closeNotification st i).2 ∧
      (closeNotification st i).1 = (found.closeFn.map Effect.invokeClose).toList := by
  constructor
  · intro h
    have hnone : st.find? (fun n => n.id == some i) = none := by
      rw [List.find?_eq_none]
      intro x hx
      simpa [beq_iff_eq] using h x hx
    unfold closeNotification
    rw [hnone]
  · intro found hfind
    have hfid : found.id = some i := by
      simpa [beq_iff_eq] using List.find?_some hfind
    unfold closeNotification
    rw [hfind]
    refine ⟨rfl, ?_, ?_⟩
    · intro hmem
      have hcond := (List.mem_filter.mp hmem).2
      rw [hfid] at hcond
      simp at hcond
    · cases hc : found.closeFn <;> simp [hc]

/-- C10 witness: closing `"x"` on the empty list is a no-op, and closing
`"a"` on a singleton with identifier `"a"` fires its stored callback `7`. -/
theorem closeNotification_spec_witness :
    closeNotification [] "x" = ([], []) ∧
    (closeNotification [⟨.content .info "h" (.text "m") (some "a"), some 7⟩] "a").1
      = [Effect.invokeClose 7] := by
  constructor
  · exact (closeNotification_spec [] "x").1 (by simp)
  · have h := ((closeNotification_spec [⟨.content .info "h" (.text "m") (some "a"), some 7⟩]
      "a").2 ⟨.content .info "h" (.text "m") (some "a"), some 7⟩ (by decide)).2.2
    simpa using h

theorem isStatus_of_state_eq {e : Entry} {code : StatusCode} (h : e.state = .status code) :
    e.isStatus = true := by
  unfold Entry.isStatus
  rw [h]

theorem statusEntries_addStatusUpdate_length (code code' : StatusCode) (st : List Entry) :
    (statusEntries code' (addStatusUpdate code st)).length ≤ 1 := by
  rw [addStatusUpdate_eq]
  unfold statusEntries
  rw [List.filter_append, List.filter_filter]
  have h1 : st.filter (fun a => (a.state == NotificationState.status code') && !a.isStatus) = [] := by
    rw [List.filter_eq_nil_iff]
    intro a _
    by_cases hEq : a.state = .status code'
    · simp [beq_iff_eq, hEq, isStatus_of_state_eq hEq]
    · simp [beq_iff_eq, hEq]
  rw [h1]
  simpa using List.length_filter_le (fun (e : Entry) => e.state == NotificationState.status code')
    [⟨.status code, none⟩]

theorem atMostOneStatusEach_filter (p : Entry → Bool) (st : List Entry)
    (h : atMostOneStatusEach st) : atMostOneStatusEach (st.filter p) :=
  ⟨le_trans (List.Sublist.length_le (statusEntries_filter_sublist _ p st)) h.1,
   le_trans (List.Sublist.length_le (statusEntries_filter_sublist _ p st)) h.2⟩

theorem statusEntries_content_singleton (code : StatusCode) (ty : Severity) (hl : String)
    (msg : Message) (i : Option String) (cf : Option Nat) :
    statusEntries code [⟨.content ty hl msg i, cf⟩] = [] := by
  cases code <;> rfl

/-- C5: the invariant "at most one status-code notification of each kind"
holds for the empty initial state and is preserved by every operation:
`addNotification` (both branches), `closeNotification`, `resetNotifications`
and the unmount teardown. -/
theorem statusInvariant_preserved :
    atMostOneStatusEach [] ∧
    (∀ st n cf, atMostOneStatusEach st → atMostOneStatusEach (addNotification st n cf).2.1) ∧
    (∀ st i, atMostOneStatusEach st → atMostOneStatusEach (closeNotification st i).2) ∧
    (∀ st, atMostOneStatusEach (resetNotifications st).2) ∧
    (∀ st, atMostOneStatusEach (teardown st).2) := by
  refine ⟨by decide, ?_, ?_, fun (_ : List Entry) => show atMostOneStatusEach [] by decide,
    fun (_ : List Entry) => show atMostOneStatusEach [] by decide⟩
  · intro st n cf h
    cases n with
    | status code =>
      exact ⟨statusEntries_addStatusUpdate_length code .s401 st,
             statusEntries_addStatusUpdate_length code .s403 st⟩
    | content ty hl msg i =>
      show atMostOneStatusEach (addContentUpdate ty hl msg i cf st)
      unfold addContentUpdate
      constructor
      · rw [statusEntries_append, statusEntries_content_singleton, List.append_nil]
        exact le_trans (List.Sublist.length_le (statusEntries_filter_sublist _ _ st)) h.1
      · rw [statusEntries_append, statusEntries_content_singleton, List.append_nil]
        exact le_trans (List.Sublist.length_le (statusEntries_filter_sublist _ _ st)) h.2
  · intro st i h
    cases hf : st.find? (fun n => n.id == some i) with
    | none =>
      unfold closeNotification
      rw [hf]
      exact h
    | some found =>
      unfold closeNotification
      rw [hf]
      exact atMostOneStatusEach_filter _ st h

/-- C5 witness: after a 401 then a 403 status add from the invariant-holding
singleton 401 state, the invariant still holds. -/
theorem statusInvariant_preserved_witness :
    atMostOneStatusEach (addNotification [⟨.status .s401, none⟩] (.status .s403) none).2.1 :=
  statusInvariant_preserved.2.1 [⟨.status .s401, none⟩] (.status .s403) none (by decide)

theorem idsUnique_filter (p : Entry → Bool) (st : List Entry) (h : idsUnique st) :
    idsUnique (st.filter p) :=
  List.Nodup.sublist (presentIds_filter_sublist p st) h

theorem presentIds_status_singleton (code : StatusCode) (cf : Option Nat) :
    presentIds [⟨.status code, cf⟩] = [] := rfl

theorem presentIds_content_singleton (ty : Severity) (hl : String) (msg : Message)
    (i : Option String) (cf : Option Nat) :
    presentIds [⟨.content ty hl msg i, cf⟩] = i.toList := by
  cases i <;> rfl

/-- C6: the invariant "every present identifier occurs on at most one entry"
holds for the empty initial state and is preserved by every operation; in
particular any entry of the content-update result carrying the added
identifier is the newly appended entry, every same-identifier entry having
been filtered out before the append. -/
theorem idsUnique_preserved :
    idsUnique [] ∧
    (∀ st n cf, idsUnique st → idsUnique (addNotification st n cf).2.1) ∧
    (∀ st i, idsUnique st → idsUnique (closeNotification st i).2) ∧
    (∀ st, idsUnique (resetNotifications st).2) ∧
    (∀ st, idsUnique (teardown st).2) ∧
    (∀ (st : List Entry) (ty : Severity) (hl : String) (msg : Message)
        (i : Option String) (cf : Option Nat),
      ∀ e ∈ addContentUpdate ty hl msg i cf st,
        e.id = i → e = ⟨.content ty hl msg i, cf⟩) := by
  refine ⟨by decide, ?_, ?_, fun (_ : List Entry) => show idsUnique [] by decide,
    fun (_ : List Entry) => show idsUnique [] by decide, ?_⟩
  · intro st n cf h
    cases n with
    | status code =>
      show idsUnique (addStatusUpdate code st)
      rw [addStatusUpdate_eq]
      unfold idsUnique
      rw [presentIds_append, presentIds_status_singleton, List.append_nil]
      exact idsUnique_filter _ st h
    | content ty hl msg i =>
      show idsUnique (addContentUpdate ty hl msg i cf st)
      unfold addContentUpdate idsUnique
      rw [presentIds_append, presentIds_content_singleton, List.nodup_append]
      refine ⟨idsUnique_filter _ st h, ?_, ?_⟩
      · cases i <;> simp
      · cases i with
        | none => simp
        | some s =>
          rw [Option.toList_some, List.disjoint_singleton]
          intro hmem
          obtain ⟨a, haf, haid⟩ := List.mem_filterMap.mp hmem
          have hcond := (List.mem_filter.mp haf).2
          rw [haid] at hcond
          simp at hcond
  · intro st i h
    cases hf : st.find? (fun n => n.id == some i) with
    | none =>
      unfold closeNotification
      rw [hf]
      exact h
    | some found =>
      unfold closeNotification
      rw [hf]
      exact idsUnique_filter _ st h
  · intro st ty hl msg i cf e he hid
    rcases List.mem_append.mp he with hin | hin
    · have hcond := (List.mem_filter.mp hin).2
      rw [hid] at hcond
      simp at hcond
    · simpa using hin

/-- C6 witness: adding a duplicate-identifier notification to a state where
identifier `"a"` is unique keeps all present identifiers unique. -/
theorem idsUnique_preserved_witness :
    idsUnique (addNotification [⟨.content .info "h" (.text "m") (some "a"), some 1⟩]
      (.content .error "E" (.text "boom") (some "a")) (some 2)).2.1 :=
  idsUnique_preserved.2.1 [⟨.content .info "h" (.text "m") (some "a"), some 1⟩]
    (.content .error "E" (.text "boom") (some "a")) (some 2) (by decide)

end NotificationModel
